import Mathlib

/-!
Verification development for the Wildberries price-tracking bot
(`src/main.go`).  The program keeps a registry
`map[chatId]map[article]map[sizeName]lastPrice` (`trackingData`),
mirrored to a JSON file, and a periodic reconciliation loop
(`startPriceChecker`) that re-fetches each tracked article and
notifies subscribers of price drops.

The embedding below models Go maps as association lists with
map-extensional operations, Go `float64` arithmetic as IEEE-754
binary64 rounding over `ℚ`, and the JSON persistence layer as an
explicit JSON value tree.
-/

/-! ### Association-list operations modelling Go map semantics

Go maps are unordered key-value stores with unique keys; we model them
as association lists.  `lookupA` is map indexing, `eraseA` is
`delete`, `insertA` is assignment `m[k] = v`.  (Order of entries is
not semantically meaningful in Go map iteration, so `insertA` placing
the fresh binding in front is extensionally faithful.) -/

def lookupA {α β : Type} [DecidableEq α] (k : α) : List (α × β) → Option β
  | [] => none
  | p :: t => if p.1 = k then some p.2 else lookupA k t

def eraseA {α β : Type} [DecidableEq α] (k : α) : List (α × β) → List (α × β)
  | [] => []
  | p :: t => if p.1 = k then eraseA k t else p :: eraseA k t

def insertA {α β : Type} [DecidableEq α] (k : α) (v : β) (l : List (α × β)) : List (α × β) :=
  (k, v) :: eraseA k l

/-! ### Data model (main.go lines 24-51) -/

/-- `PriceInfo` (main.go lines 24-27): integer minor-unit amounts. -/
structure PriceInfo where
  product : Int
  logistics : Int
  deriving DecidableEq, Repr

/-- `Size` (main.go lines 29-32). -/
structure Size where
  name : String
  price : PriceInfo
  deriving DecidableEq, Repr

/-- `Product` (main.go lines 34-38). -/
structure Product where
  id : Int
  name : String
  sizes : List Size
  deriving DecidableEq, Repr

/-- Inner map `map[size]lastPrice` of `trackingData` (main.go line 51). -/
abbrev SizeMap := List (String × ℚ)

/-- Middle map `map[article]map[size]lastPrice` of `trackingData`. -/
abbrev ArtMap := List (String × SizeMap)

/-- The registry `trackingData : map[int64]map[string]map[string]float64`
(main.go line 51). -/
abbrev Registry := List (Int × ArtMap)

/-! ### Go float64 model

`trackingData` stores prices as Go `float64`.  We model binary64
values as the rationals they denote and the float operations used by
`calculatePrice` (int-to-float conversion and division, both correctly
rounded, round-to-nearest ties-to-even) by explicit rounding on `ℚ`.
Overflow to infinity and NaN lie outside the value range this program
produces and are not modelled. -/

/-- Number of binary digits of `n` (0 for 0); fuel-driven so that it is
structurally recursive. -/
def bitlenAux : Nat → Nat → Nat
  | 0, _ => 0
  | f + 1, n => if n = 0 then 0 else bitlenAux f (n / 2) + 1

def bitlen (n : Nat) : Nat := bitlenAux n n

/-- Floor of the base-2 logarithm of `|q|` (meaningful for `q ≠ 0`). -/
def flog2 (q : ℚ) : Int :=
  let e0 : Int := (bitlen q.num.natAbs : Int) - (bitlen q.den : Int)
  if (2 : ℚ) ^ e0 ≤ |q| then e0 else e0 - 1

/-- Exponent of the unit in the last place of the binary64 value
nearest to `q` (clamped for the subnormal range). -/
def roundF64exp (q : ℚ) : Int := max (flog2 q - 52) (-1074)

/-- Signed integer significand of the binary64 value nearest to `q`
(round to nearest, ties to even). -/
def roundF64mant (q : ℚ) : Int :=
  let x : ℚ := |q| * (2 : ℚ) ^ (-(roundF64exp q))
  let m : Int := ⌊x⌋
  let frac : ℚ := x - (m : ℚ)
  let r : Int :=
    if frac < 1 / 2 then m
    else if 1 / 2 < frac then m + 1
    else if m % 2 = 0 then m else m + 1
  if 0 < q then r else -r

/-- Round a rational to the nearest IEEE-754 binary64 value
(ties to even), including the subnormal range. -/
def roundF64 (q : ℚ) : ℚ :=
  if q = 0 then 0 else (roundF64mant q : ℚ) * (2 : ℚ) ^ roundF64exp q

/-- `calculatePrice` (main.go lines 181-183):
`float64(price.Product+price.Logistics) / 100.0`.  The integer sum is
converted to float64 (a rounding) and divided by the exact double
`100.0` (a correctly rounded division). -/
def calculatePrice (p : PriceInfo) : ℚ :=
  roundF64 (roundF64 ((p.product + p.logistics : Int) : ℚ) / 100)

/-! ### Reconciliation per-size step (main.go lines 346-384) -/

/-- Outcome of the per-size body of the checker loop:
`stored` is the value written to `trackingData` for this size (none =
no write), `event` is the (old, new) pair of an emitted price-drop
notification, `saved` records whether `saveDataToFile` was called. -/
structure StepOut where
  stored : Option ℚ
  event : Option (ℚ × ℚ)
  saved : Bool
  deriving DecidableEq, Repr

/-- Body of the per-size loop of `startPriceChecker`
(main.go lines 346-384), given the stored snapshot price for this
size name (`none` when the size was not yet tracked) and the freshly
computed price. -/
def checkSizeStep (oldPrice : Option ℚ) (newPrice : ℚ) : StepOut :=
  match oldPrice with
  | none => ⟨some newPrice, none, false⟩
  | some p =>
    if newPrice < p then ⟨some newPrice, some (p, newPrice), true⟩
    else ⟨none, none, false⟩

/-- A price-drop notification message (main.go lines 362-369): the
message carries the product name, article, size name, old and new
price. -/
structure DropEvent where
  productName : String
  article : String
  sizeName : String
  oldPrice : ℚ
  newPrice : ℚ
  deriving DecidableEq, Repr

/-- Per-product body of the checker loop (main.go lines 346-384):
iterate over the freshly fetched sizes, comparing each against the
snapshot `oldPrices` and applying writes to the live map (which at the
start of processing the product equals the snapshot).  Returns the
resulting size map, the emitted notifications, and the number of
`saveDataToFile` calls. -/
def checkProductStep (article : String) (oldPrices : SizeMap) (prodName : String)
    (acc : SizeMap × List DropEvent × Nat) (sz : Size) : SizeMap × List DropEvent × Nat :=
  let newPrice := calculatePrice sz.price
  let st := checkSizeStep (lookupA sz.name oldPrices) newPrice
  ((match st.stored with
    | some v => insertA sz.name v acc.1
    | none => acc.1),
   (match st.event with
    | some pr => acc.2.1 ++ [⟨prodName, article, sz.name, pr.1, pr.2⟩]
    | none => acc.2.1),
   acc.2.2 + (if st.saved then 1 else 0))

def checkProduct (article : String) (oldPrices : SizeMap) (prod : Product) :
    SizeMap × List DropEvent × Nat :=
  prod.sizes.foldl (checkProductStep article oldPrices prod.name) (oldPrices, [], 0)

/-! ### Tracking a product (main.go lines 280-297)

`handleTrackingRequest` first validates that the article is numeric
and fetches the product; the registry mutation of its critical section
is embedded here.  The chat and article maps are created only when
absent (`if !ok make`), then every fetched size is written. -/

def trackUpdate (reg : Registry) (chatID : Int) (article : String) (prod : Product) :
    Registry :=
  let artMap := (lookupA chatID reg).getD []
  let sizeMap := (lookupA article artMap).getD []
  let sizeMap2 := prod.sizes.foldl
    (fun m sz => insertA sz.name (calculatePrice sz.price) m) sizeMap
  insertA chatID (insertA article sizeMap2 artMap) reg

/-! ### One reconciliation tick (main.go lines 319-389)

The tick snapshots the registry, then for each (chat, article) pair
fetches the product; on fetch error the pair is skipped (`continue`,
main.go line 343).  The adapter is passed as a function argument; a
`none` result models `getWBProductInfo` returning an error.  Go map
iteration visits each key exactly once, so updating each entry in
place is embedded as a pointwise map over the entries. -/

structure TickEvent where
  chat : Int
  article : String
  ev : DropEvent
  deriving DecidableEq, Repr

/-- Processing of one (chat, article) pair inside the tick loop
(main.go lines 337-387). -/
def tickEntry (fetch : Int → String → Option Product) (chat : Int) (article : String)
    (old : SizeMap) : SizeMap × List DropEvent × Nat :=
  match fetch chat article with
  | none => (old, [], 0)
  | some p => checkProduct article old p

/-- One full tick of `startPriceChecker`: the updated registry, all
emitted notifications, and the number of persistence writes. -/
def tick (reg : Registry) (fetch : Int → String → Option Product) :
    Registry × List TickEvent × Nat :=
  (reg.map (fun ce => (ce.1, ce.2.map (fun ae => (ae.1, (tickEntry fetch ce.1 ae.1 ae.2).1)))),
   reg.flatMap (fun ce => ce.2.flatMap (fun ae =>
     ((tickEntry fetch ce.1 ae.1 ae.2).2.1).map (fun e => ⟨ce.1, ae.1, e⟩))),
   reg.foldl (fun n ce => ce.2.foldl (fun n2 ae => n2 + (tickEntry fetch ce.1 ae.1 ae.2).2.2) n) 0)

/-! ### Untrack and list (main.go lines 394-459) -/

inductive UntrackReply where
  | askArticle
  | removed
  | notTracked
  deriving DecidableEq, Repr

structure UntrackResult where
  reg : Registry
  found : Bool
  saved : Bool
  reply : UntrackReply
  deriving DecidableEq, Repr

/-- The Go function `strings.TrimSpace`: strip leading and trailing whitespace
(structurally recursive so that it evaluates). -/
def trimSpace (s : String) : String :=
  String.mk (((s.data.dropWhile Char.isWhitespace).reverse.dropWhile
    Char.isWhitespace).reverse)

/-- `handleUntrackRequest` (main.go lines 432-459): trims the article,
asks for one if empty; deletes the article from the map of the chat when
present (`foundAndDeleted`); calls `saveDataToFile` only when
something was deleted; otherwise replies that the article was not
tracked. -/
def handleUntrackRequest (reg : Registry) (chatID : Int) (article0 : String) :
    UntrackResult :=
  let article := trimSpace article0
  if article = "" then ⟨reg, false, false, .askArticle⟩
  else
    match lookupA chatID reg with
    | none => ⟨reg, false, false, .notTracked⟩
    | some arts =>
      if (lookupA article arts).isSome then
        ⟨insertA chatID (eraseA article arts) reg, true, true, .removed⟩
      else ⟨reg, false, false, .notTracked⟩

/-- `handleListRequest` (main.go lines 394-428): the reply renders one
block per article in the map of the chat (every tracked article appears,
even when the fresh name fetch fails).  We model the list of article
identifiers shown. -/
def handleListRequest (reg : Registry) (chatID : Int) : List String :=
  ((lookupA chatID reg).getD []).map Prod.fst

/-- Lookup of one (chat, article) entry of the registry. -/
def lookup2 (reg : Registry) (chat : Int) (article : String) : Option SizeMap :=
  lookupA article ((lookupA chat reg).getD [])

/-- Per-size lookup after `trackUpdate`: every fetched size carries its
fresh price, every other size keeps its stored value. -/
def lookup3 (reg : Registry) (chat : Int) (article : String) (s : String) : Option ℚ :=
  lookupA s ((lookupA article ((lookupA chat reg).getD [])).getD [])

/-! ### Fold lemmas for the per-size loops -/

/-- Value that the per-size loop writes for size `sz` (projection of
`checkSizeStep` used to state lemmas). -/
def storedOf (o : SizeMap) (sz : Size) : Option ℚ :=
  (checkSizeStep (lookupA sz.name o) (calculatePrice sz.price)).stored

/-- Notification that the per-size loop emits for size `sz`. -/
def eventOf (a : String) (o : SizeMap) (n : String) (sz : Size) : Option DropEvent :=
  ((checkSizeStep (lookupA sz.name o) (calculatePrice sz.price)).event).map
    (fun pr => ⟨n, a, sz.name, pr.1, pr.2⟩)

/-- Whether the per-size loop persists after size `sz`. -/
def savedOf (o : SizeMap) (sz : Size) : Bool :=
  (checkSizeStep (lookupA sz.name o) (calculatePrice sz.price)).saved

/-- Requested-size filter of a tracked item.  Modelled from the data
model of the code: `trackingData` stores only `map[size]lastPrice` per
article (main.go line 51) and the track command carries only an
article (main.go lines 244-246, 256-259), so no per-item size filter
exists — the requested-size set is empty ("track all sizes") for
every item. -/
def requestedSizeSet (_item : SizeMap) : List String := []

/-! ### Persistence layer (main.go lines 55-110)

`saveDataToFile` marshals `trackingData` to JSON and writes the file;
`loadDataFromFile` reads it back.  We model JSON documents as a value
tree `J`.  Go encodes `int64` map keys as their exact decimal strings
and parses them back (an exact round trip), modelled by the
integer-keyed object constructor `objI`; float64 values round-trip
exactly through the shortest-representation encoding of Go, modelled by
carrying the denoted rational in `num`. -/

inductive J where
  | num : ℚ → J
  | str : String → J
  | obj : List (String × J) → J
  | objI : List (Int × J) → J

/-- Observable state of the persistence file. -/
inductive FileContent where
  | missing
  | empty
  | wellFormed : J → FileContent
  | malformed

def encodeSizeMap (m : SizeMap) : J :=
  J.obj (m.map (fun p => (p.1, J.num p.2)))

def encodeArtMap (m : ArtMap) : J :=
  J.obj (m.map (fun p => (p.1, encodeSizeMap p.2)))

def encodeRegistry (r : Registry) : J :=
  J.objI (r.map (fun p => (p.1, encodeArtMap p.2)))

/-- `saveDataToFile` (main.go lines 58-76): marshalling the registry
(maps and float64 values only) cannot fail, so the file always ends up
holding the encoded registry. -/
def saveDataToFile (r : Registry) : FileContent :=
  FileContent.wellFormed (encodeRegistry r)

def decodeSizePairs : List (String × J) → Option SizeMap
  | [] => some []
  | (k, J.num q) :: t => (decodeSizePairs t).map (fun m => (k, q) :: m)
  | (_, _) :: _ => none

def decodeSizeMap : J → Option SizeMap
  | J.obj l => decodeSizePairs l
  | _ => none

def decodeArtPairs : List (String × J) → Option ArtMap
  | [] => some []
  | (k, j) :: t =>
    match decodeSizeMap j with
    | some m => (decodeArtPairs t).map (fun r => (k, m) :: r)
    | none => none

def decodeArtMap : J → Option ArtMap
  | J.obj l => decodeArtPairs l
  | _ => none

def decodeChatPairs : List (Int × J) → Option Registry
  | [] => some []
  | (k, j) :: t =>
    match decodeArtMap j with
    | some m => (decodeChatPairs t).map (fun r => (k, m) :: r)
    | none => none

/-- Unmarshalling of the persisted JSON into
`map[int64]map[string]map[string]float64`. -/
def decodeRegistry : J → Option Registry
  | J.objI l => decodeChatPairs l
  | _ => none

/-- `loadDataFromFile` (main.go lines 79-110): a missing file and an
empty file both yield the empty registry without error; content that
does not unmarshal into the registry type is an error.  `main`
(lines 186-189) panics on any error, so an error here is a fatal
startup failure. -/
def loadDataFromFile : FileContent → Except String Registry
  | FileContent.missing => Except.ok []
  | FileContent.empty => Except.ok []
  | FileContent.wellFormed j =>
    match decodeRegistry j with
    | some r => Except.ok r
    | none => Except.error "unmarshal error"
  | FileContent.malformed => Except.error "unmarshal error"

/-! ### Decoding of the adapter size records (main.go lines 24-32)

The Go `encoding/json` decoder leaves a struct field at its zero value when the
key is absent, so a size record carrying no `price` object decodes to
`PriceInfo{0, 0}`. -/

def decodeIntField (l : List (String × J)) (k : String) : Option Int :=
  match lookupA k l with
  | none => some 0
  | some (J.num q) => if q.den = 1 then some q.num else none
  | some _ => none

def decodePriceInfo : J → Option PriceInfo
  | J.obj l =>
    match decodeIntField l "product", decodeIntField l "logistics" with
    | some a, some b => some ⟨a, b⟩
    | _, _ => none
  | _ => none

def decodeSize : J → Option Size
  | J.obj l =>
    (match lookupA "name" l with
     | none => some ""
     | some (J.str s) => some s
     | some _ => none).bind (fun nm =>
    (match lookupA "price" l with
     | none => some (⟨0, 0⟩ : PriceInfo)
     | some j => decodePriceInfo j).map (fun pr => ⟨nm, pr⟩))
  | _ => none

/-! ### The reconciliation diff of the spec, for refinement comparison

`checkProductSpec` is NOT translated from the source: it follows the
words of spec.md §4.3 step 4 (diff over every size-name present in
LastPrices, stockout/restock/price-drop classification with sentinel
S=0, silent adoption of sizes appearing only in the fresh fetch), to
be compared against the source-derived `checkProduct`. -/

inductive SpecEvent where
  | stockout : String → SpecEvent
  | restock : String → ℚ → SpecEvent
  | priceDrop : String → ℚ → ℚ → SpecEvent
  deriving DecidableEq, Repr

def findSize (s : String) : List Size → Option Size
  | [] => none
  | sz :: t => if sz.name = s then some sz else findSize s t

/-- Spec classification of one tracked size with stored value `p` and
fresh value `newVal` (0 = out of stock / absent). -/
def classifySpec (p : ℚ) (newVal : ℚ) (s : String) : ℚ × Option SpecEvent :=
  if p = 0 then (if 0 < newVal then (newVal, some (.restock s newVal)) else (0, none))
  else if newVal = 0 then (0, some (.stockout s))
  else if newVal < p then (newVal, some (.priceDrop s p newVal))
  else (newVal, none)

/-- Modelled from the spec: spec.md §4.3 steps 4-5 diff a product over
the size-names of LastPrices and adopt fetch-only sizes silently. -/
def checkProductSpec (old : SizeMap) (prod : Product) : SizeMap × List SpecEvent :=
  let diffed := old.map (fun p =>
    let newVal := match findSize p.1 prod.sizes with
      | none => 0
      | some sz => calculatePrice sz.price
    (p.1, classifySpec p.2 newVal p.1))
  let adopted := (prod.sizes.filter (fun sz => !(lookupA sz.name old).isSome)).map
    (fun sz => (sz.name, calculatePrice sz.price))
  (diffed.map (fun p => (p.1, p.2.1)) ++ adopted, diffed.filterMap (fun p => p.2.2))

/-! ### Lemmas about the association-list operations -/

theorem lookupA_eraseA_self {α β : Type} [DecidableEq α] (k : α) (l : List (α × β)) :
    lookupA k (eraseA k l) = none := by
  induction l with
  | nil => rfl
  | cons p t ih =>
    by_cases h : p.1 = k
    · simp [eraseA, h, ih]
    · simp [eraseA, lookupA, h, ih]

theorem lookupA_eraseA_ne {α β : Type} [DecidableEq α] (k k' : α) (l : List (α × β))
    (h : k' ≠ k) : lookupA k' (eraseA k l) = lookupA k' l := by
  induction l with
  | nil => rfl
  | cons p t ih =>
    by_cases hp : p.1 = k
    · have h1 : ¬ p.1 = k' := fun hc => h (hc ▸ hp)
      have h2 : ¬ k = k' := fun hc => h hc.symm
      simp [eraseA, lookupA, hp, h1, h2, ih]
    · simp only [eraseA, hp, if_false, lookupA, ih]

theorem lookupA_insertA_self {α β : Type} [DecidableEq α] (k : α) (v : β)
    (l : List (α × β)) : lookupA k (insertA k v l) = some v := by
  simp [insertA, lookupA]

theorem lookupA_insertA_ne {α β : Type} [DecidableEq α] (k k' : α) (v : β)
    (l : List (α × β)) (h : k' ≠ k) : lookupA k' (insertA k v l) = lookupA k' l := by
  have : ¬ k = k' := fun hc => h hc.symm
  simp [insertA, lookupA, this, lookupA_eraseA_ne k k' l h]

theorem lookupA_eq_none_iff {α β : Type} [DecidableEq α] (k : α) (l : List (α × β)) :
    lookupA k l = none ↔ k ∉ l.map Prod.fst := by
  induction l with
  | nil => simp [lookupA]
  | cons p t ih =>
    by_cases h : p.1 = k
    · simp [lookupA, h]
    · have : ¬ k = p.1 := fun hc => h hc.symm
      simp [lookupA, h, ih, this]

theorem checkProductStep_fst (a : String) (o : SizeMap) (n : String)
    (acc : SizeMap × List DropEvent × Nat) (sz : Size) :
    (checkProductStep a o n acc sz).1 =
      (match storedOf o sz with
       | some v => insertA sz.name v acc.1
       | none => acc.1) := rfl

theorem checkProductStep_snd (a : String) (o : SizeMap) (n : String)
    (acc : SizeMap × List DropEvent × Nat) (sz : Size) :
    (checkProductStep a o n acc sz).2.1 =
      acc.2.1 ++ (match eventOf a o n sz with
                  | some e => [e]
                  | none => []) := by
  rcases hst : checkSizeStep (lookupA sz.name o) (calculatePrice sz.price) with ⟨s1, s2, s3⟩
  rcases s2 with _ | pr
  · simp [checkProductStep, eventOf, hst]
  · simp [checkProductStep, eventOf, hst]

theorem checkProductStep_thd (a : String) (o : SizeMap) (n : String)
    (acc : SizeMap × List DropEvent × Nat) (sz : Size) :
    (checkProductStep a o n acc sz).2.2 =
      acc.2.2 + (if savedOf o sz then 1 else 0) := rfl

theorem checkProduct_fold (a : String) (o : SizeMap) (n : String) :
    ∀ (sizes : List Size) (acc : SizeMap × List DropEvent × Nat),
      sizes.foldl (checkProductStep a o n) acc =
        (sizes.foldl (fun m sz =>
            match storedOf o sz with
            | some v => insertA sz.name v m
            | none => m) acc.1,
         acc.2.1 ++ sizes.filterMap (eventOf a o n),
         acc.2.2 + sizes.countP (savedOf o)) := by
  intro sizes
  induction sizes with
  | nil => intro acc; simp
  | cons sz t ih =>
    intro acc
    rw [List.foldl_cons, ih]
    simp only [Prod.mk.injEq]
    refine ⟨?_, ?_, ?_⟩
    · rw [checkProductStep_fst, List.foldl_cons]
    · rw [checkProductStep_snd, List.filterMap_cons]
      rcases eventOf a o n sz with _ | e
      · simp
      · simp
    · rw [checkProductStep_thd, List.countP_cons]
      rcases h : savedOf o sz
      · simp [h]
      · simp [h]
        omega

theorem checkProduct_events (a : String) (o : SizeMap) (prod : Product) :
    (checkProduct a o prod).2.1 = prod.sizes.filterMap (eventOf a o prod.name) := by
  rw [checkProduct, checkProduct_fold]
  simp

theorem checkProduct_saves (a : String) (o : SizeMap) (prod : Product) :
    (checkProduct a o prod).2.2 = prod.sizes.countP (savedOf o) := by
  rw [checkProduct, checkProduct_fold]
  simp

theorem checkProduct_fst (a : String) (o : SizeMap) (prod : Product) :
    (checkProduct a o prod).1 =
      prod.sizes.foldl (fun m sz =>
        match storedOf o sz with
        | some v => insertA sz.name v m
        | none => m) o := by
  rw [checkProduct, checkProduct_fold]

theorem findSize_eq_none (s : String) (sizes : List Size) :
    findSize s sizes = none ↔ s ∉ sizes.map Size.name := by
  induction sizes with
  | nil => simp [findSize]
  | cons sz t ih =>
    by_cases h : sz.name = s
    · simp [findSize, h]
    · have : ¬ s = sz.name := fun hc => h hc.symm
      simp [findSize, h, ih, this]

theorem findSize_name {s : String} {sizes : List Size} {sz : Size}
    (h : findSize s sizes = some sz) : sz.name = s := by
  induction sizes with
  | nil => exact absurd h (by simp [findSize])
  | cons sz0 t ih =>
    by_cases h0 : sz0.name = s
    · rw [findSize, if_pos h0] at h
      cases h
      exact h0
    · rw [findSize, if_neg h0] at h
      exact ih h

theorem lookupA_foldl_condInsert_notmem (g : Size → Option ℚ) (sizes : List Size)
    (m0 : SizeMap) (s : String) (h : s ∉ sizes.map Size.name) :
    lookupA s (sizes.foldl (fun m sz =>
        match g sz with
        | some v => insertA sz.name v m
        | none => m) m0) = lookupA s m0 := by
  induction sizes generalizing m0 with
  | nil => rfl
  | cons sz t ih =>
    simp only [List.map_cons, List.mem_cons] at h
    push_neg at h
    rw [List.foldl_cons, ih _ h.2]
    cases hgz : g sz with
    | none => simp only [hgz]
    | some v =>
      simp only [hgz]
      exact lookupA_insertA_ne sz.name s v m0 h.1

theorem lookupA_foldl_condInsert (g : Size → Option ℚ) (sizes : List Size)
    (m0 : SizeMap) (s : String) (hnd : (sizes.map Size.name).Nodup) :
    lookupA s (sizes.foldl (fun m sz =>
        match g sz with
        | some v => insertA sz.name v m
        | none => m) m0) =
      (match findSize s sizes with
       | some sz =>
         (match g sz with
          | some v => some v
          | none => lookupA s m0)
       | none => lookupA s m0) := by
  induction sizes generalizing m0 with
  | nil => rfl
  | cons sz t ih =>
    simp only [List.map_cons, List.nodup_cons] at hnd
    rw [List.foldl_cons]
    by_cases h : sz.name = s
    · subst h
      rw [lookupA_foldl_condInsert_notmem g t _ _ hnd.1]
      cases hgz : g sz with
      | none => simp [findSize, hgz]
      | some v => simp [findSize, hgz, lookupA_insertA_self]
    · rw [ih _ hnd.2]
      have hne : s ≠ sz.name := fun hc => h hc.symm
      cases hgz : g sz with
      | none => simp [findSize, h, hgz]
      | some v => simp [findSize, h, hgz, lookupA_insertA_ne sz.name s v m0 hne]

theorem checkProduct_lookup (a : String) (o : SizeMap) (prod : Product)
    (hnd : (prod.sizes.map Size.name).Nodup) (s : String) :
    lookupA s (checkProduct a o prod).1 =
      (match findSize s prod.sizes with
       | some sz =>
         (match (checkSizeStep (lookupA s o) (calculatePrice sz.price)).stored with
          | some v => some v
          | none => lookupA s o)
       | none => lookupA s o) := by
  rw [checkProduct_fst, lookupA_foldl_condInsert (storedOf o) prod.sizes o s hnd]
  cases hfs : findSize s prod.sizes with
  | none => rfl
  | some sz =>
    have hname := findSize_name hfs
    simp only [storedOf, hname]

theorem trackUpdate_lookup (reg : Registry) (chat : Int) (article : String)
    (prod : Product) (hnd : (prod.sizes.map Size.name).Nodup) (s : String) :
    lookup3 (trackUpdate reg chat article prod) chat article s =
      (match findSize s prod.sizes with
       | some sz => some (calculatePrice sz.price)
       | none => lookup3 reg chat article s) := by
  unfold trackUpdate lookup3
  rw [lookupA_insertA_self]
  simp only [Option.getD_some]
  rw [lookupA_insertA_self]
  simp only [Option.getD_some]
  have h : lookupA s (prod.sizes.foldl
      (fun m sz => insertA sz.name (calculatePrice sz.price) m)
      ((lookupA article ((lookupA chat reg).getD [])).getD [])) =
      (match findSize s prod.sizes with
       | some sz => some (calculatePrice sz.price)
       | none => lookupA s ((lookupA article ((lookupA chat reg).getD [])).getD [])) :=
    lookupA_foldl_condInsert (fun sz => some (calculatePrice sz.price)) prod.sizes _ s hnd
  exact h

/-! ### Round-trip lemmas for the persistence codec -/

theorem decodeSizePairs_encode (m : SizeMap) :
    decodeSizePairs (m.map (fun p => (p.1, J.num p.2))) = some m := by
  induction m with
  | nil => rfl
  | cons p t ih => simp [decodeSizePairs, ih]

theorem decodeSizeMap_encode (m : SizeMap) :
    decodeSizeMap (encodeSizeMap m) = some m := by
  simp [encodeSizeMap, decodeSizeMap, decodeSizePairs_encode]

theorem decodeArtPairs_encode (m : ArtMap) :
    decodeArtPairs (m.map (fun p => (p.1, encodeSizeMap p.2))) = some m := by
  induction m with
  | nil => rfl
  | cons p t ih => simp [decodeArtPairs, decodeSizeMap_encode, ih]

theorem decodeArtMap_encode (m : ArtMap) :
    decodeArtMap (encodeArtMap m) = some m := by
  simp [encodeArtMap, decodeArtMap, decodeArtPairs_encode]

theorem decodeChatPairs_encode (r : Registry) :
    decodeChatPairs (r.map (fun p => (p.1, encodeArtMap p.2))) = some r := by
  induction r with
  | nil => rfl
  | cons p t ih => simp [decodeChatPairs, decodeArtMap_encode, ih]

theorem decodeRegistry_encode (r : Registry) :
    decodeRegistry (encodeRegistry r) = some r := by
  simp [encodeRegistry, decodeRegistry, decodeChatPairs_encode]

/-! ### Dyadic shape of float64 values -/

theorem roundF64_dyadic (q : ℚ) :
    ∃ m e : Int, roundF64 q = (m : ℚ) * (2 : ℚ) ^ e := by
  by_cases h : q = 0
  · exact ⟨0, 0, by simp [roundF64, h]⟩
  · exact ⟨roundF64mant q, roundF64exp q, by simp [roundF64, h]⟩

theorem calculatePrice_dyadic (p : PriceInfo) :
    ∃ m e : Int, calculatePrice p = (m : ℚ) * (2 : ℚ) ^ e :=
  roundF64_dyadic _

/-- `1/100` is not a dyadic rational, hence not a float64 value. -/
theorem one_hundredth_not_dyadic (m e : Int) :
    (m : ℚ) * (2 : ℚ) ^ e ≠ 1 / 100 := by
  intro h
  rcases e with k | k
  · rw [Int.ofNat_eq_coe, zpow_natCast] at h
    have h' : (m : ℚ) * 2 ^ k * 100 = 1 := by
      field_simp at h
      linarith
    have hz : (m * 2 ^ k * 100 : Int) = 1 := by exact_mod_cast h'
    have h4 : (4 : Int) ∣ 1 := by
      rw [← hz]
      exact ⟨m * 2 ^ k * 25, by ring⟩
    norm_num at h4
  · rw [zpow_negSucc] at h
    have hp : ((2 : ℚ) ^ (k + 1)) ≠ 0 := by positivity
    have h' : (m : ℚ) * 100 = 2 ^ (k + 1) := by
      field_simp at h
      linarith
    have hz : (m * 100 : Int) = 2 ^ (k + 1) := by exact_mod_cast h'
    have h5 : (5 : Int) ∣ 2 ^ (k + 1) := by
      rw [← hz]
      exact ⟨m * 20, by ring⟩
    have hp5 : Prime (5 : Int) := by norm_num
    have h52 := hp5.dvd_of_dvd_pow h5
    norm_num at h52

theorem calculatePrice_zero_zero : calculatePrice ⟨0, 0⟩ = 0 := by
  simp [calculatePrice, roundF64]

theorem lookupA_map_pair {α β γ : Type} [DecidableEq α] (f : α → β → γ)
    (l : List (α × β)) (k : α) :
    lookupA k (l.map (fun p => (p.1, f p.1 p.2))) = (lookupA k l).map (f k) := by
  induction l with
  | nil => rfl
  | cons p t ih =>
    by_cases h : p.1 = k
    · simp [lookupA, h]
    · simp [lookupA, h, ih]

theorem tick_lookup (reg : Registry) (fetch : Int → String → Option Product)
    (c : Int) (a : String) :
    lookup2 (tick reg fetch).1 c a =
      (lookup2 reg c a).map (fun old => (tickEntry fetch c a old).1) := by
  simp only [lookup2, tick]
  rw [lookupA_map_pair
    (fun c0 arts => arts.map (fun ae => (ae.1, (tickEntry fetch c0 ae.1 ae.2).1))) reg c]
  cases hcr : lookupA c reg with
  | none => rfl
  | some arts =>
    simp only [Option.map_some', Option.getD_some]
    rw [lookupA_map_pair (fun a0 old => (tickEntry fetch c a0 old).1) arts a]

theorem tick_events_fetch (reg : Registry) (fetch : Int → String → Option Product) :
    ∀ e ∈ (tick reg fetch).2.1, ∃ p, fetch e.chat e.article = some p := by
  intro e he
  simp only [tick] at he
  rw [List.mem_flatMap] at he
  obtain ⟨ce, hce, he2⟩ := he
  rw [List.mem_flatMap] at he2
  obtain ⟨ae, hae, he3⟩ := he2
  rw [List.mem_map] at he3
  obtain ⟨ev, hev, heq⟩ := he3
  subst heq
  cases hf : fetch ce.1 ae.1 with
  | none =>
    simp only [tickEntry, hf] at hev
    exact absurd hev (List.not_mem_nil ev)
  | some p => exact ⟨p, rfl⟩

/-- C1 counterexample input: chat 1 already tracks article "7" with
stored size "S" at price 10; a re-track fetches only size "M".  The
claim requires size "S" to be dropped from the new baseline; the code
keeps it at its old value. -/
theorem claim1_counterexample :
    lookup3 (trackUpdate [(1, [("7", [("S", 10)])])] 1 "7"
        ⟨7, "x", [⟨"M", ⟨0, 0⟩⟩]⟩) 1 "7" "S" = some 10 := by
  simp [trackUpdate, lookup3, lookupA, insertA, eraseA]

/-- C1 (amended): re-tracking a (subscriber, productId) pair merges
instead of replacing: every size in the fresh fetch is (re)stored at
its freshly computed price, and a previously stored size absent from
the fresh fetch keeps its old entry (it is not dropped). -/
theorem claim1_retrack_merges (reg : Registry) (chat : Int) (article : String)
    (prod : Product) (hnd : (prod.sizes.map Size.name).Nodup) (s : String) :
    lookup3 (trackUpdate reg chat article prod) chat article s =
      (match findSize s prod.sizes with
       | some sz => some (calculatePrice sz.price)
       | none => lookup3 reg chat article s) :=
  trackUpdate_lookup reg chat article prod hnd s

theorem claim1_witness :
    lookup3 (trackUpdate [] 5 "9" ⟨9, "p", [⟨"L", ⟨0, 0⟩⟩]⟩) 5 "9" "L"
      = some (calculatePrice ⟨0, 0⟩) := by
  have h := claim1_retrack_merges [] 5 "9" ⟨9, "p", [⟨"L", ⟨0, 0⟩⟩]⟩ (by simp) "L"
  simpa [findSize] using h

/-- C2 counterexample: with stored price `P = 0` (the out-of-stock
sentinel of the claim) and fresh price `Q = 5`, the claim requires a
restock event and stored value 5; the code stores nothing and emits
nothing (the `newPrice < oldPrice` test is false).  Likewise for
`P = 10`, `Q = 20` the claim requires a silent update storing 20; the
code stores nothing. -/
theorem claim2_counterexample :
    checkSizeStep (some 0) 5 = ⟨none, none, false⟩
    ∧ checkSizeStep (some 10) 20 = ⟨none, none, false⟩ := by
  constructor
  · norm_num [checkSizeStep]
  · norm_num [checkSizeStep]

/-- C2 (amended): the per-size diff knows a single transition of
interest, `new < old`.  (P>0, new=0) yields a price-drop notification
(not a distinct stockout event), stored value 0 and a persistence
write; (P=0, new=Q>0) yields no event and no store; (P>0, new=Q<P)
yields a price-drop event, stored value Q and a persistence write;
(P>0, new=Q>P) yields no event and no store; (P==new) yields no
event and no persistence write. -/
theorem claim2_diff_behavior (P Q : ℚ) :
    (0 < P → checkSizeStep (some P) 0 = ⟨some 0, some (P, 0), true⟩)
    ∧ (P = 0 → 0 < Q → checkSizeStep (some P) Q = ⟨none, none, false⟩)
    ∧ (Q < P → checkSizeStep (some P) Q = ⟨some Q, some (P, Q), true⟩)
    ∧ (P < Q → checkSizeStep (some P) Q = ⟨none, none, false⟩)
    ∧ (P = Q → checkSizeStep (some P) Q = ⟨none, none, false⟩) := by
  refine ⟨?_, ?_, ?_, ?_, ?_⟩
  · intro h
    simp [checkSizeStep, h]
  · intro hP hQ
    subst hP
    simp [checkSizeStep, not_lt.mpr hQ.le]
  · intro h
    simp [checkSizeStep, h]
  · intro h
    simp [checkSizeStep, not_lt.mpr h.le]
  · intro h
    subst h
    simp [checkSizeStep]

theorem claim2_witness :
    checkSizeStep (some 2) 1 = ⟨some 1, some (2, 1), true⟩ :=
  (claim2_diff_behavior 2 1).2.2.1 (by norm_num)

/-- C7 counterexample: at baseAmount 1, logisticsAmount 0 the
computed float64 price is not exactly `(1 + 0) / 100`, because the
result of the float64 computation is a dyadic rational and `1/100` is
not dyadic. -/
theorem claim7_counterexample :
    calculatePrice ⟨1, 0⟩ ≠ ((1 : ℚ) + 0) / 100 := by
  obtain ⟨m, e, hme⟩ := calculatePrice_dyadic ⟨1, 0⟩
  rw [hme]
  intro h
  refine one_hundredth_not_dyadic m e ?_
  rw [h]
  norm_num

/-- C7 (amended): the computed price is the float64 rounding of
`(baseAmount + logisticsAmount) / 100` — always a dyadic rational
`m * 2 ^ e` — which can differ from the exact decimal quotient;
recomputation from the same integer inputs is a pure function of
them, so recomputed prices compare equal. -/
theorem claim7_price_is_float64 (p : PriceInfo) :
    ∃ m e : Int, calculatePrice p = (m : ℚ) * (2 : ℚ) ^ e :=
  calculatePrice_dyadic p

/-- C10: a fresh size record with no price fields decodes to zero
amounts, the computed price is 0, and against a positive stored price
the tick classifies this as a price drop: it emits a notification with
new price 0 and stores 0. -/
theorem claim10_missing_price (n : String) (P : ℚ) (hP : 0 < P) :
    decodeSize (J.obj [("name", J.str n)]) = some ⟨n, ⟨0, 0⟩⟩
    ∧ calculatePrice ⟨0, 0⟩ = 0
    ∧ checkSizeStep (some P) (calculatePrice ⟨0, 0⟩) = ⟨some 0, some (P, 0), true⟩ := by
  refine ⟨rfl, calculatePrice_zero_zero, ?_⟩
  rw [calculatePrice_zero_zero]
  simp [checkSizeStep, hP]

theorem claim10_witness :
    decodeSize (J.obj [("name", J.str "M")]) = some ⟨"M", ⟨0, 0⟩⟩
    ∧ calculatePrice ⟨0, 0⟩ = 0
    ∧ checkSizeStep (some 10) (calculatePrice ⟨0, 0⟩) = ⟨some 0, some (10, 0), true⟩ :=
  claim10_missing_price "M" 10 (by norm_num)

theorem eventOf_sizeName {a : String} {o : SizeMap} {n : String} {sz : Size}
    {e : DropEvent} (h : eventOf a o n sz = some e) : e.sizeName = sz.name := by
  unfold eventOf at h
  cases hev : (checkSizeStep (lookupA sz.name o) (calculatePrice sz.price)).event with
  | none =>
    rw [hev] at h
    simp at h
  | some pr =>
    rw [hev] at h
    simp only [Option.map_some'] at h
    injection h with h2
    rw [← h2]

theorem findSize_of_mem {sizes : List Size} (hnd : (sizes.map Size.name).Nodup)
    {sz : Size} (hmem : sz ∈ sizes) {s : String} (hname : sz.name = s) :
    findSize s sizes = some sz := by
  induction sizes with
  | nil => exact absurd hmem (List.not_mem_nil sz)
  | cons sz0 t ih =>
    simp only [List.map_cons, List.nodup_cons] at hnd
    rcases List.mem_cons.mp hmem with h0 | hmem'
    · subst h0
      rw [findSize, if_pos hname]
    · by_cases h0 : sz0.name = s
      · exfalso
        apply hnd.1
        have heq : sz0.name = sz.name := h0.trans hname.symm
        rw [heq]
        exact List.mem_map.mpr ⟨sz, hmem', rfl⟩
      · rw [findSize, if_neg h0]
        exact ih hnd.2 hmem'

/-- C3 counterexample input: LastPrices holds size "S" at price 10 and
the fresh fetch returns no sizes.  Under the claim (diff over every
LastPrices size, classified per the spec) size "S" would be treated as
a stockout and stored as 0; the code never examines it: the stored map
is unchanged and no event is emitted. -/
theorem claim3_counterexample :
    (checkProduct "7" [("S", 10)] ⟨7, "x", []⟩).1 = [("S", 10)]
    ∧ (checkProduct "7" [("S", 10)] ⟨7, "x", []⟩).2.1 = []
    ∧ (checkProductSpec [("S", 10)] ⟨7, "x", []⟩).1 = [("S", 0)]
    ∧ (checkProductSpec [("S", 10)] ⟨7, "x", []⟩).2 = [SpecEvent.stockout "S"] := by
  refine ⟨rfl, rfl, ?_, ?_⟩
  · norm_num [checkProductSpec, classifySpec, findSize]
  · norm_num [checkProductSpec, classifySpec, findSize, List.filterMap_cons]

/-- C3 (amended): the reconciliation diff is taken over every
size-name present in the fresh fetch, not over LastPrices: a size
present only in LastPrices is never examined (value retained, no
event), while a size appearing only in the fresh fetch is adopted at
its fetched price without any notification. -/
theorem claim3_diff_over_fetch (a : String) (o : SizeMap) (prod : Product)
    (hnd : (prod.sizes.map Size.name).Nodup) (s : String) :
    (s ∉ prod.sizes.map Size.name →
      lookupA s (checkProduct a o prod).1 = lookupA s o
      ∧ ∀ e ∈ (checkProduct a o prod).2.1, e.sizeName ≠ s)
    ∧ (∀ sz ∈ prod.sizes, sz.name = s → lookupA s o = none →
      lookupA s (checkProduct a o prod).1 = some (calculatePrice sz.price)
      ∧ ∀ e ∈ (checkProduct a o prod).2.1, e.sizeName ≠ s) := by
  constructor
  · intro hs
    constructor
    · rw [checkProduct_lookup a o prod hnd s]
      simp only [(findSize_eq_none s prod.sizes).mpr hs]
    · intro e he hcontra
      rw [checkProduct_events] at he
      obtain ⟨sz, hszmem, hev⟩ := List.mem_filterMap.mp he
      have hsn := eventOf_sizeName hev
      have hns : sz.name = s := hsn.symm.trans hcontra
      exact hs (List.mem_map.mpr ⟨sz, hszmem, hns⟩)
  · intro sz hm hname hnone
    have hfs := findSize_of_mem hnd hm hname
    constructor
    · rw [checkProduct_lookup a o prod hnd s]
      simp only [hfs, hnone]
      simp [checkSizeStep]
    · intro e he hcontra
      rw [checkProduct_events] at he
      obtain ⟨sz', hszmem', hev'⟩ := List.mem_filterMap.mp he
      have hsn' := eventOf_sizeName hev'
      have hname' : sz'.name = s := hsn'.symm.trans hcontra
      have hsz' := findSize_of_mem hnd hszmem' hname'
      rw [hfs] at hsz'
      have heq : sz' = sz := by
        injection hsz' with h
        exact h.symm
      subst heq
      unfold eventOf at hev'
      rw [hname', hnone] at hev'
      simp [checkSizeStep] at hev'

theorem claim3_witness :
    lookupA "S" (checkProduct "9" [("S", 7)] ⟨9, "y", [⟨"M", ⟨0, 0⟩⟩]⟩).1 = some 7 := by
  have h := (claim3_diff_over_fetch "9" [("S", 7)] ⟨9, "y", [⟨"M", ⟨0, 0⟩⟩]⟩
    (by simp) "S").1 (by simp)
  rw [h.1]
  rfl

/-- C4: a notification for a size transition is emitted only if the
size is in the requested-size set of the item or that set is empty.  In
this code the requested-size set of every item is empty (the data
model stores no size filter), so every notification trivially
satisfies the condition and all sizes are tracked. -/
theorem claim4_size_filter (a : String) (o : SizeMap) (prod : Product) :
    ∀ e ∈ (checkProduct a o prod).2.1,
      e.sizeName ∈ requestedSizeSet o ∨ requestedSizeSet o = [] := by
  intro e _
  exact Or.inr rfl

theorem claim4_witness :
    (⟨"x", "7", "M", 10, 0⟩ : DropEvent).sizeName ∈ requestedSizeSet [("M", 10)]
    ∨ requestedSizeSet [("M", 10)] = [] := by
  have hev : (checkProduct "7" [("M", 10)] ⟨7, "x", [⟨"M", ⟨0, 0⟩⟩]⟩).2.1
      = [⟨"x", "7", "M", 10, 0⟩] := by
    rw [checkProduct_events]
    simp [eventOf, lookupA, calculatePrice_zero_zero, checkSizeStep,
      (by norm_num : (0 : ℚ) < 10)]
  exact claim4_size_filter "7" [("M", 10)] ⟨7, "x", [⟨"M", ⟨0, 0⟩⟩]⟩
    ⟨"x", "7", "M", 10, 0⟩ (by rw [hev]; exact List.mem_singleton.mpr rfl)

/-- C5: persisting the registry and reloading from the same file
yields the registry back unchanged, for every registry state
(in particular the empty registry, single-entry registries, and
registries holding 0-price out-of-stock sentinel entries). -/
theorem claim5_roundtrip (r : Registry) :
    loadDataFromFile (saveDataToFile r) = Except.ok r := by
  simp [saveDataToFile, loadDataFromFile, decodeRegistry_encode]

/-- C6: a missing or empty persistence file loads as the empty
registry without error; content that does not decode to a registry is
a load error, which `main` turns into a fatal startup panic. -/
theorem claim6_startup_load :
    loadDataFromFile FileContent.missing = Except.ok []
    ∧ loadDataFromFile FileContent.empty = Except.ok []
    ∧ (∀ res : Registry, loadDataFromFile FileContent.malformed ≠ Except.ok res)
    ∧ (∀ (j : J) (res : Registry), decodeRegistry j = none →
        loadDataFromFile (FileContent.wellFormed j) ≠ Except.ok res) := by
  refine ⟨rfl, rfl, ?_, ?_⟩
  · intro res h
    simp [loadDataFromFile] at h
  · intro j res hdec h
    simp [loadDataFromFile, hdec] at h

theorem claim6_witness :
    loadDataFromFile (FileContent.wellFormed (J.num 3)) ≠ Except.ok [] :=
  claim6_startup_load.2.2.2 (J.num 3) [] rfl

/-- C8: after an untrack, the list command never shows the removed
article, and untracking an article that is not currently tracked
replies "not tracked", leaves the registry unchanged and performs no
persistence write. -/
theorem claim8_untrack_list (reg : Registry) (chat : Int) (article : String)
    (h : trimSpace article ≠ "") :
    trimSpace article ∉ handleListRequest ((handleUntrackRequest reg chat article).reg) chat
    ∧ (lookup2 reg chat (trimSpace article) = none →
        (handleUntrackRequest reg chat article).reply = UntrackReply.notTracked
        ∧ (handleUntrackRequest reg chat article).reg = reg
        ∧ (handleUntrackRequest reg chat article).saved = false) := by
  constructor
  · cases hcr : lookupA chat reg with
    | none => simp [handleUntrackRequest, handleListRequest, h, hcr]
    | some arts =>
      cases hla : lookupA (trimSpace article) arts with
      | none =>
        simp [handleUntrackRequest, handleListRequest, h, hcr, hla]
        intro x hx
        exact (lookupA_eq_none_iff _ _).mp hla
          (List.mem_map.mpr ⟨(trimSpace article, x), hx, rfl⟩)
      | some sm =>
        simp [handleUntrackRequest, handleListRequest, h, hcr, hla, lookupA_insertA_self]
        intro x hx
        exact (lookupA_eq_none_iff _ _).mp (lookupA_eraseA_self (trimSpace article) arts)
          (List.mem_map.mpr ⟨(trimSpace article, x), hx, rfl⟩)
  · intro hnone
    unfold lookup2 at hnone
    cases hcr : lookupA chat reg with
    | none => simp [handleUntrackRequest, h, hcr]
    | some arts =>
      rw [hcr] at hnone
      simp only [Option.getD_some] at hnone
      simp [handleUntrackRequest, h, hcr, hnone]

theorem claim8_witness :
    "7" ∉ handleListRequest
        ((handleUntrackRequest [(1, [("7", [("S", 10)])])] 1 "7").reg) 1
    ∧ (handleUntrackRequest [(1, [("7", [("S", 10)])])] 2 "9").reply
        = UntrackReply.notTracked := by
  constructor
  · have h := (claim8_untrack_list [(1, [("7", [("S", 10)])])] 1 "7" (by decide)).1
    simpa using h
  · have h := ((claim8_untrack_list [(1, [("7", [("S", 10)])])] 2 "9"
      (by decide)).2 (by rfl))
    exact h.1

/-- C9: during a tick, a (chat, article) pair whose fetch fails is
skipped: its stored sizes are unchanged and no notification mentions
it, while every pair whose fetch succeeds is still processed with the
per-product check (an adapter error never aborts the batch). -/
theorem claim9_error_skip (reg : Registry) (fetch : Int → String → Option Product)
    (c : Int) (a : String) :
    (fetch c a = none →
      lookup2 (tick reg fetch).1 c a = lookup2 reg c a
      ∧ ∀ e ∈ (tick reg fetch).2.1, ¬(e.chat = c ∧ e.article = a))
    ∧ (∀ (p : Product) (old : SizeMap), fetch c a = some p →
        lookup2 reg c a = some old →
        lookup2 (tick reg fetch).1 c a = some (checkProduct a old p).1) := by
  constructor
  · intro hf
    constructor
    · rw [tick_lookup]
      cases h2 : lookup2 reg c a with
      | none => rfl
      | some old => simp [tickEntry, hf]
    · intro e he hca
      obtain ⟨p, hp⟩ := tick_events_fetch reg fetch e he
      rw [hca.1, hca.2, hf] at hp
      exact Option.noConfusion hp
  · intro p old hf hold
    rw [tick_lookup, hold]
    simp [tickEntry, hf]

theorem claim9_witness :
    lookup2 (tick [(1, [("7", [("S", 5)]), ("8", [("M", 3)])])]
        (fun _ a => if a = "8" then some ⟨8, "y", []⟩ else none)).1 1 "7"
      = lookup2 [(1, [("7", [("S", 5)]), ("8", [("M", 3)])])] 1 "7"
    ∧ lookup2 (tick [(1, [("7", [("S", 5)]), ("8", [("M", 3)])])]
        (fun _ a => if a = "8" then some ⟨8, "y", []⟩ else none)).1 1 "8"
      = some (checkProduct "8" [("M", 3)] ⟨8, "y", []⟩).1 :=
  ⟨((claim9_error_skip _ _ 1 "7").1 rfl).1,
   (claim9_error_skip _ _ 1 "8").2 ⟨8, "y", []⟩ [("M", 3)] rfl rfl⟩
